import Mathlib

/-!
Shallow embedding of `valheim_save_tools_py/valheimItemReader.py`: the
`ValheimItemReader` byte cursor, `read_item`, and `parse_items_from_base64`,
together with the slice of Python library semantics they rely on
(`base64.b64decode` in its default non-strict mode, `bytes.decode("utf-8")`,
`struct.unpack`, bytes indexing and slicing).

Modelling conventions:
- Python `bytes` objects become `List Nat` (each element a byte value).
- Python exceptions become an error value in `Except`; since the Python
  object keeps the mutations performed before the raise, every read returns
  `Except PyErr α × ValheimItemReader`: the state component is the reader as
  it stands after the call, whether or not the call raised.
- 32-bit floats are represented by their IEEE-754 bit patterns (the raw
  little-endian 32-bit word); the code never performs float arithmetic, it
  only transports the 4 bytes, so this is faithful.
-/

namespace ValheimSaveTools

/-- The Python exceptions that can escape the functions under study. -/
inductive PyErr where
  /-- Python `IndexError`: bytes index out of range (raised by `data[offset]`). -/
  | indexError
  /-- Python `struct.error`: `struct.unpack` got a buffer of the wrong size. -/
  | structError
  /-- Python `UnicodeDecodeError`: the sliced bytes are not valid UTF-8. -/
  | unicodeDecodeError
  /-- Python `binascii.Error`: invalid base64 data-character count / padding. -/
  | binasciiError
  /-- Python `ValueError` from `b64decode` on a non-ASCII input string. -/
  | asciiError
  deriving DecidableEq

instance {e a : Type} [DecidableEq e] [DecidableEq a] :
    DecidableEq (Except e a) := fun x y =>
  match x, y with
  | Except.ok u, Except.ok v =>
    if h : u = v then isTrue (by rw [h]) else isFalse (by simp [h])
  | Except.error u, Except.error v =>
    if h : u = v then isTrue (by rw [h]) else isFalse (by simp [h])
  | Except.ok _, Except.error _ => isFalse (by simp)
  | Except.error _, Except.ok _ => isFalse (by simp)

/-- State of a `ValheimItemReader` object: the buffer, the cursor offset, and
the `unknown_data` / `unknown_byte` attributes that `read_item` assigns
(modelled as plain fields, initial values `[]` and `0`). -/
structure ValheimItemReader where
  data : List Nat
  offset : Nat
  unknown_data : List Nat
  unknown_byte : Nat
  deriving DecidableEq

/-- Constructor `ValheimItemReader(data)`: fresh reader at offset 0. -/
def mkReader (data : List Nat) : ValheimItemReader :=
  ⟨data, 0, [], 0⟩

/-- Python slice `data[start : start + len]`: truncates silently, never
raises. -/
def sliceBytes (data : List Nat) (start len : Nat) : List Nat :=
  (data.drop start).take len

/-- Combine a byte list little-endian into a natural number. -/
def leNat : List Nat → Nat
  | [] => 0
  | b :: rest => b + 256 * leNat rest

/-- Interpretation of a 32-bit word as a signed integer (`struct` format
`<i`), two's complement. -/
def toInt32 (n : Nat) : Int :=
  if n < 2 ^ 31 then (n : Int) else (n : Int) - 2 ^ 32

/-- Interpretation of a 64-bit word as a signed integer (`struct` format
`<q`), two's complement. -/
def toInt64 (n : Nat) : Int :=
  if n < 2 ^ 63 then (n : Int) else (n : Int) - 2 ^ 64

/-- Method `read_byte`: `value = self.data[self.offset]` (raises `IndexError` out of
range) and only then `self.offset += 1`. -/
def read_byte (r : ValheimItemReader) : Except PyErr Nat × ValheimItemReader :=
  if h : r.offset < r.data.length then
    (Except.ok (r.data.get ⟨r.offset, h⟩), { r with offset := r.offset + 1 })
  else
    (Except.error PyErr.indexError, r)

/-- Method `read_int32`: `struct.unpack` of the 4-byte slice (raises `struct.error`
when the silently-truncated slice is not exactly 4 bytes), then
`self.offset += 4`. -/
def read_int32 (r : ValheimItemReader) : Except PyErr Int × ValheimItemReader :=
  let s := sliceBytes r.data r.offset 4
  if s.length = 4 then
    (Except.ok (toInt32 (leNat s)), { r with offset := r.offset + 4 })
  else
    (Except.error PyErr.structError, r)

/-- Method `read_int64`: as `read_int32` but 8 bytes, format `<q`. -/
def read_int64 (r : ValheimItemReader) : Except PyErr Int × ValheimItemReader :=
  let s := sliceBytes r.data r.offset 8
  if s.length = 8 then
    (Except.ok (toInt64 (leNat s)), { r with offset := r.offset + 8 })
  else
    (Except.error PyErr.structError, r)

/-- Method `read_float`: `struct.unpack("<f", ...)` of the 4-byte slice; the value
is represented by its 32-bit IEEE-754 bit pattern. -/
def read_float (r : ValheimItemReader) : Except PyErr Nat × ValheimItemReader :=
  let s := sliceBytes r.data r.offset 4
  if s.length = 4 then
    (Except.ok (leNat s), { r with offset := r.offset + 4 })
  else
    (Except.error PyErr.structError, r)

/-- Method `read_bool`: `value = self.data[self.offset] != 0` (raises `IndexError`
out of range), then `self.offset += 1`. -/
def read_bool (r : ValheimItemReader) : Except PyErr Bool × ValheimItemReader :=
  if h : r.offset < r.data.length then
    (Except.ok (decide (r.data.get ⟨r.offset, h⟩ ≠ 0)),
     { r with offset := r.offset + 1 })
  else
    (Except.error PyErr.indexError, r)

/-- Strict UTF-8 validity, as checked by Python `bytes.decode("utf-8")`:
C0/C1 and lone continuation bytes rejected, overlong forms rejected,
surrogates (ED A0..BF) rejected, code points above U+10FFFF rejected. -/
def utf8Valid : List Nat → Bool
  | [] => true
  | b :: rest =>
    if b < 0x80 then utf8Valid rest
    else if b < 0xC2 then false
    else if b < 0xE0 then
      match rest with
      | c1 :: rest2 => decide (0x80 ≤ c1 ∧ c1 < 0xC0) && utf8Valid rest2
      | [] => false
    else if b < 0xF0 then
      match rest with
      | c1 :: c2 :: rest2 =>
        (decide ((if b = 0xE0 then 0xA0 else 0x80) ≤ c1 ∧
                 c1 < (if b = 0xED then 0xA0 else 0xC0)) &&
         decide (0x80 ≤ c2 ∧ c2 < 0xC0)) && utf8Valid rest2
      | _ => false
    else if b < 0xF5 then
      match rest with
      | c1 :: c2 :: c3 :: rest2 =>
        (decide ((if b = 0xF0 then 0x90 else 0x80) ≤ c1 ∧
                 c1 < (if b = 0xF4 then 0x90 else 0xC0)) &&
         decide (0x80 ≤ c2 ∧ c2 < 0xC0) && decide (0x80 ≤ c3 ∧ c3 < 0xC0)) &&
        utf8Valid rest2
      | _ => false
    else false

/-- Method `read_string`: one length byte, then — when nonzero — the Python slice
`self.data[self.offset : self.offset + length]` (silently truncated when
fewer than `length` bytes remain) is UTF-8 decoded, and only after a
successful decode is `self.offset += length` executed.  The string value is
represented by its UTF-8 byte list. -/
def read_string (r : ValheimItemReader) :
    Except PyErr (List Nat) × ValheimItemReader :=
  match read_byte r with
  | (Except.error e, r1) => (Except.error e, r1)
  | (Except.ok len, r1) =>
    if len = 0 then
      (Except.ok [], r1)
    else
      let s := sliceBytes r1.data r1.offset len
      if utf8Valid s then
        (Except.ok s, { r1 with offset := r1.offset + len })
      else
        (Except.error PyErr.unicodeDecodeError, r1)

/-- The dictionary returned by `read_item`, as a flat record.  Note the
Python dictionary carries exactly these ten keys: the trailing bytes are
stored on the reader object (`self.unknown_data`, `self.unknown_byte`), not
in the returned dictionary. -/
structure ValheimItem where
  name : List Nat
  stack : Int
  durability : Nat
  pos_x : Int
  pos_y : Int
  equipped : Bool
  quality : Int
  variant : Int
  crafter_id : Int
  crafter_name : List Nat
  deriving DecidableEq

/-- Sequencing of reads under Python exception semantics: on a raise the
rest of the method body is skipped and the state at the raise is kept. -/
def readBind {α β : Type} (step : Except PyErr α × ValheimItemReader)
    (k : α → ValheimItemReader → Except PyErr β × ValheimItemReader) :
    Except PyErr β × ValheimItemReader :=
  match step with
  | (Except.error e, r) => (Except.error e, r)
  | (Except.ok a, r) => k a r

/-- Constant `UNKNOWN_DATA_SIZE`: 8 bytes of unknown data after each item. -/
def UNKNOWN_DATA_SIZE : Nat := 8

/-- Method `read_item`: the ten field reads in source order, then the 8-byte slice
stored into `self.unknown_data` (a Python slice: never raises, `offset`
advances by 8 unconditionally), then `self.unknown_byte = self.read_byte()`. -/
def read_item (r : ValheimItemReader) :
    Except PyErr ValheimItem × ValheimItemReader :=
  readBind (read_string r) fun name r =>
  readBind (read_int32 r) fun stack r =>
  readBind (read_float r) fun durability r =>
  readBind (read_int32 r) fun pos_x r =>
  readBind (read_int32 r) fun pos_y r =>
  readBind (read_bool r) fun equipped r =>
  readBind (read_int32 r) fun quality r =>
  readBind (read_int32 r) fun variant r =>
  readBind (read_int64 r) fun crafter_id r =>
  readBind (read_string r) fun crafter_name r =>
  let r := { r with unknown_data := sliceBytes r.data r.offset UNKNOWN_DATA_SIZE,
                    offset := r.offset + UNKNOWN_DATA_SIZE }
  readBind (read_byte r) fun ub r =>
  let r := { r with unknown_byte := ub }
  (Except.ok ⟨name, stack, durability, pos_x, pos_y, equipped, quality,
              variant, crafter_id, crafter_name⟩, r)

/-- Value of a character in the standard base64 alphabet
(`table_a2b_base64`), `none` for every other character. -/
def b64val (c : Char) : Option Nat :=
  if 'A' ≤ c ∧ c ≤ 'Z' then some (c.toNat - 65)
  else if 'a' ≤ c ∧ c ≤ 'z' then some (c.toNat - 97 + 26)
  else if '0' ≤ c ∧ c ≤ '9' then some (c.toNat - 48 + 52)
  else if c = '+' then some 62
  else if c = '/' then some 63
  else none

/-- Model of `binascii.a2b_base64` in its default non-strict mode, as called by
`base64.b64decode(s)`: characters outside the alphabet are skipped; a pad
`=` is skipped while fewer than two sextets of the current quad have been
seen, and completes the decode once `quad_pos + pads` reaches 4; output
bytes are emitted eagerly per quad position; leftover data characters at
the end (count `% 4 == 1`, or an unpadded 2/3 remainder) raise
`binascii.Error`.  `acc` holds the emitted bytes in reverse. -/
def a2b_base64 (quad_pos leftchar pads : Nat) (acc : List Nat) :
    List Char → Except PyErr (List Nat)
  | [] => if quad_pos = 0 then Except.ok acc.reverse
          else Except.error PyErr.binasciiError
  | c :: rest =>
    if c = '=' then
      if 2 ≤ quad_pos then
        if 4 ≤ quad_pos + (pads + 1) then Except.ok acc.reverse
        else a2b_base64 quad_pos leftchar (pads + 1) acc rest
      else a2b_base64 quad_pos leftchar pads acc rest
    else
      match b64val c with
      | none => a2b_base64 quad_pos leftchar pads acc rest
      | some v =>
        match quad_pos with
        | 0 => a2b_base64 1 v 0 acc rest
        | 1 => a2b_base64 2 (v % 16) 0 ((leftchar * 4 + v / 16) :: acc) rest
        | 2 => a2b_base64 3 (v % 4) 0 ((leftchar * 16 + v / 4) :: acc) rest
        | _ => a2b_base64 0 0 0 ((leftchar * 64 + v) :: acc) rest

/-- Model of `base64.b64decode(s)` on a `str` argument: the string must be pure
ASCII (else `ValueError`), then `binascii.a2b_base64` decodes it. -/
def b64decode (s : List Char) : Except PyErr (List Nat) :=
  if s.all (fun c => c.toNat < 128) then a2b_base64 0 0 0 [] s
  else Except.error PyErr.asciiError

/-- The `for i in range(num_items)` loop body of `parse_items_from_base64`:
`try: items.append(reader.read_item()) except Exception: break`.  Returns
the accumulated items and the reader as the loop leaves it. -/
def parseLoop : Nat → ValheimItemReader → List ValheimItem × ValheimItemReader
  | 0, r => ([], r)
  | n + 1, r =>
    match read_item r with
    | (Except.ok item, r1) =>
      let tail := parseLoop n r1
      (item :: tail.1, tail.2)
    | (Except.error _, r1) => ([], r1)

/-- Body of `parse_items_from_base64`, kept together with the final reader state:
base64-decode (errors propagate), construct a fresh reader, read the two
int32 header fields `version` and `num_items` outside any `try` (errors
propagate), then run the guarded item loop.  `range(num_items)` on a
negative `num_items` is the empty range, hence `Int.toNat`. -/
def parse_items_run (s : List Char) :
    Except PyErr (List ValheimItem × ValheimItemReader) :=
  match b64decode s with
  | Except.error e => Except.error e
  | Except.ok data =>
    match read_int32 (mkReader data) with
    | (Except.error e, _) => Except.error e
    | (Except.ok _version, r1) =>
      match read_int32 r1 with
      | (Except.error e, _) => Except.error e
      | (Except.ok num_items, r2) =>
        Except.ok (parseLoop num_items.toNat r2)

/-- Function `parse_items_from_base64`: the list of parsed items (the reader is a
local variable of the call). -/
def parse_items_from_base64 (s : List Char) : Except PyErr (List ValheimItem) :=
  (parse_items_run s).map Prod.fst

/-! ### Spec-side encoder

The source repository is read-only for items: it contains no serializer.
The following definitions follow the record layout written in the spec
(§6 "External interfaces"), so that round-trip claims can be stated:
they are the spec's words, not a translation of repository code. -/

/-- Little-endian encoding of `n` into exactly `w` bytes. -/
def encLE : Nat → Nat → List Nat
  | 0, _ => []
  | w + 1, n => n % 256 :: encLE w (n / 256)

/-- Spec layout: int32, little-endian, two's complement. -/
def encInt32 (v : Int) : List Nat :=
  encLE 4 (v % 4294967296).toNat

/-- Spec layout: int64, little-endian, two's complement. -/
def encInt64 (v : Int) : List Nat :=
  encLE 8 (v % 18446744073709551616).toNat

/-- Spec layout: single length byte, then the UTF-8 bytes. -/
def encString (s : List Nat) : List Nat :=
  s.length :: s

/-- Spec layout of one record (§6): length-prefixed name, int32 stack,
float32 durability (its 4 bit-pattern bytes), int32 positions, one
equipped byte, int32 quality and variant, int64 crafter id, length-prefixed
crafter name, the 8 + 1 trailing opaque bytes. -/
def encodeItem (it : ValheimItem) (t8 : List Nat) (t1 : Nat) : List Nat :=
  encString it.name ++ encInt32 it.stack ++ encLE 4 it.durability ++
  encInt32 it.pos_x ++ encInt32 it.pos_y ++ [if it.equipped then 1 else 0] ++
  encInt32 it.quality ++ encInt32 it.variant ++ encInt64 it.crafter_id ++
  encString it.crafter_name ++ t8 ++ [t1]

/-! ### Arithmetic round-trip lemmas -/

theorem length_encLE (w : Nat) : ∀ n : Nat, (encLE w n).length = w := by
  induction w with
  | zero => intro n; rfl
  | succ w ih => intro n; simp [encLE, ih]

theorem leNat_encLE (w : Nat) : ∀ n : Nat, n < 256 ^ w → leNat (encLE w n) = n := by
  induction w with
  | zero =>
    intro n h
    simp [Nat.pow_zero] at h
    simp [h, encLE, leNat]
  | succ w ih =>
    intro n h
    have hdiv : n / 256 < 256 ^ w := by
      rw [Nat.div_lt_iff_lt_mul (by norm_num)]
      calc n < 256 ^ (w + 1) := h
        _ = 256 ^ w * 256 := by ring
    simp [encLE, leNat, ih (n / 256) hdiv, Nat.mod_add_div]

theorem toInt32_encInt32 (v : Int) (h1 : -(2 ^ 31) ≤ v) (h2 : v < 2 ^ 31) :
    toInt32 (leNat (encInt32 v)) = v := by
  have hlt : (v % 4294967296).toNat < 256 ^ 4 := by
    have := Int.emod_nonneg v (by norm_num : (4294967296 : Int) ≠ 0)
    have := Int.emod_lt_of_pos v (by norm_num : (0 : Int) < 4294967296)
    omega
  rw [encInt32, leNat_encLE 4 _ hlt, toInt32]
  split <;> omega

theorem toInt64_encInt64 (v : Int) (h1 : -(2 ^ 63) ≤ v) (h2 : v < 2 ^ 63) :
    toInt64 (leNat (encInt64 v)) = v := by
  have hlt : (v % 18446744073709551616).toNat < 256 ^ 8 := by
    have := Int.emod_nonneg v (by norm_num : (18446744073709551616 : Int) ≠ 0)
    have := Int.emod_lt_of_pos v (by norm_num : (0 : Int) < 18446744073709551616)
    omega
  rw [encInt64, leNat_encLE 8 _ hlt, toInt64]
  split <;> omega

/-! ### Cursor step lemmas: reading from the front of the unconsumed tail -/

theorem drop_append_step (d mid rest : List Nat) (o : Nat)
    (h : d.drop o = mid ++ rest) :
    sliceBytes d o mid.length = mid ∧ d.drop (o + mid.length) = rest := by
  constructor
  · rw [sliceBytes, h, List.take_left]
  · rw [← List.drop_drop, h, List.drop_left]

theorem read_byte_step (d : List Nat) (o : Nat) (ud : List Nat) (ub : Nat)
    (x : Nat) (rest : List Nat) (h : d.drop o = x :: rest) :
    read_byte ⟨d, o, ud, ub⟩ = (Except.ok x, ⟨d, o + 1, ud, ub⟩) ∧
    d.drop (o + 1) = rest := by
  have hsome : d[o]? = some x := by
    have h0 := List.getElem?_drop d o 0
    rw [h] at h0
    simpa using h0.symm
  rw [List.getElem?_eq_some] at hsome
  obtain ⟨hlt, hget⟩ := hsome
  constructor
  · rw [read_byte, dif_pos hlt]
    simp [List.get_eq_getElem, hget]
  · have h2 := (drop_append_step d [x] rest o (by simpa using h)).2
    simpa using h2

theorem read_bool_step (d : List Nat) (o : Nat) (ud : List Nat) (ub : Nat)
    (x : Nat) (rest : List Nat) (h : d.drop o = x :: rest) :
    read_bool ⟨d, o, ud, ub⟩ =
      (Except.ok (decide (x ≠ 0)), ⟨d, o + 1, ud, ub⟩) ∧
    d.drop (o + 1) = rest := by
  have hsome : d[o]? = some x := by
    have h0 := List.getElem?_drop d o 0
    rw [h] at h0
    simpa using h0.symm
  rw [List.getElem?_eq_some] at hsome
  obtain ⟨hlt, hget⟩ := hsome
  constructor
  · rw [read_bool, dif_pos hlt]
    simp [List.get_eq_getElem, hget]
  · have h2 := (drop_append_step d [x] rest o (by simpa using h)).2
    simpa using h2

theorem read_int32_step (d : List Nat) (o : Nat) (ud : List Nat) (ub : Nat)
    (v : Int) (rest : List Nat)
    (h1 : -(2 ^ 31) ≤ v) (h2 : v < 2 ^ 31)
    (h : d.drop o = encInt32 v ++ rest) :
    read_int32 ⟨d, o, ud, ub⟩ = (Except.ok v, ⟨d, o + 4, ud, ub⟩) ∧
    d.drop (o + 4) = rest := by
  have hlen : (encInt32 v).length = 4 := by rw [encInt32, length_encLE]
  obtain ⟨hs, hd⟩ := drop_append_step d (encInt32 v) rest o h
  rw [hlen] at hs hd
  refine ⟨?_, hd⟩
  rw [read_int32]
  simp [hs, hlen, toInt32_encInt32 v h1 h2]

theorem read_int64_step (d : List Nat) (o : Nat) (ud : List Nat) (ub : Nat)
    (v : Int) (rest : List Nat)
    (h1 : -(2 ^ 63) ≤ v) (h2 : v < 2 ^ 63)
    (h : d.drop o = encInt64 v ++ rest) :
    read_int64 ⟨d, o, ud, ub⟩ = (Except.ok v, ⟨d, o + 8, ud, ub⟩) ∧
    d.drop (o + 8) = rest := by
  have hlen : (encInt64 v).length = 8 := by rw [encInt64, length_encLE]
  obtain ⟨hs, hd⟩ := drop_append_step d (encInt64 v) rest o h
  rw [hlen] at hs hd
  refine ⟨?_, hd⟩
  rw [read_int64]
  simp [hs, hlen, toInt64_encInt64 v h1 h2]

theorem read_float_step (d : List Nat) (o : Nat) (ud : List Nat) (ub : Nat)
    (bits : Nat) (rest : List Nat)
    (hb : bits < 2 ^ 32)
    (h : d.drop o = encLE 4 bits ++ rest) :
    read_float ⟨d, o, ud, ub⟩ = (Except.ok bits, ⟨d, o + 4, ud, ub⟩) ∧
    d.drop (o + 4) = rest := by
  have hlen : (encLE 4 bits).length = 4 := by rw [length_encLE]
  obtain ⟨hs, hd⟩ := drop_append_step d (encLE 4 bits) rest o h
  rw [hlen] at hs hd
  refine ⟨?_, hd⟩
  rw [read_float]
  simp [hs, hlen, leNat_encLE 4 bits (by norm_num at hb ⊢; omega)]

theorem read_string_step (d : List Nat) (o : Nat) (ud : List Nat) (ub : Nat)
    (s rest : List Nat)
    (hv : utf8Valid s = true)
    (h : d.drop o = encString s ++ rest) :
    read_string ⟨d, o, ud, ub⟩ = (Except.ok s, ⟨d, o + (1 + s.length), ud, ub⟩) ∧
    d.drop (o + (1 + s.length)) = rest := by
  have h' : d.drop o = s.length :: (s ++ rest) := by
    rw [encString] at h
    simpa using h
  obtain ⟨hb, hd1⟩ := read_byte_step d o ud ub s.length (s ++ rest) h'
  by_cases hnil : s.length = 0
  · have hs0 : s = [] := List.length_eq_zero.mp hnil
    subst hs0
    constructor
    · rw [read_string, hb]
      simp
    · simpa using hd1
  · obtain ⟨hs2, hd2⟩ := drop_append_step d s rest (o + 1) hd1
    constructor
    · rw [read_string, hb]
      simp only [if_neg hnil]
      simp [hs2, hv, Nat.add_assoc]
    · rw [show o + (1 + s.length) = o + 1 + s.length by omega]
      exact hd2

/-- Length of one spec-encoded record. -/
theorem length_encodeItem (it : ValheimItem) (t8 : List Nat) (t1 : Nat)
    (ht8 : t8.length = 8) :
    (encodeItem it t8 t1).length = 44 + it.name.length + it.crafter_name.length := by
  simp [encodeItem, encString, encInt32, encInt64, length_encLE, ht8]
  omega

theorem decide_boolByte (b : Bool) :
    decide ((if b then (1 : Nat) else 0) ≠ 0) = b := by
  cases b <;> simp

/-- Decoding a spec-encoded record: `read_item` succeeds, returns exactly the
encoded fields, advances the offset over the whole record, and stores the 9
trailing bytes in the reader attributes `unknown_data` / `unknown_byte`. -/
theorem read_item_encode (d : List Nat) (o : Nat) (ud : List Nat) (ub : Nat)
    (it : ValheimItem) (t8 : List Nat) (t1 : Nat) (rest : List Nat)
    (hname : utf8Valid it.name = true)
    (hcraft : utf8Valid it.crafter_name = true)
    (hstack1 : -(2 ^ 31) ≤ it.stack) (hstack2 : it.stack < 2 ^ 31)
    (hdur : it.durability < 2 ^ 32)
    (hpx1 : -(2 ^ 31) ≤ it.pos_x) (hpx2 : it.pos_x < 2 ^ 31)
    (hpy1 : -(2 ^ 31) ≤ it.pos_y) (hpy2 : it.pos_y < 2 ^ 31)
    (hq1 : -(2 ^ 31) ≤ it.quality) (hq2 : it.quality < 2 ^ 31)
    (hvr1 : -(2 ^ 31) ≤ it.variant) (hvr2 : it.variant < 2 ^ 31)
    (hc1 : -(2 ^ 63) ≤ it.crafter_id) (hc2 : it.crafter_id < 2 ^ 63)
    (ht8 : t8.length = 8)
    (h : d.drop o = encodeItem it t8 t1 ++ rest) :
    read_item ⟨d, o, ud, ub⟩ =
      (Except.ok it,
       ⟨d, o + (44 + it.name.length + it.crafter_name.length), t8, t1⟩) ∧
    d.drop (o + (44 + it.name.length + it.crafter_name.length)) = rest := by
  rw [encodeItem] at h
  simp only [List.append_assoc] at h
  obtain ⟨e1, h⟩ := read_string_step d o ud ub it.name _ hname h
  obtain ⟨e2, h⟩ := read_int32_step d (o + (1 + it.name.length)) ud ub it.stack _ hstack1 hstack2 h
  obtain ⟨e3, h⟩ := read_float_step d (o + (1 + it.name.length) + 4) ud ub it.durability _ hdur h
  obtain ⟨e4, h⟩ := read_int32_step d (o + (1 + it.name.length) + 4 + 4) ud ub it.pos_x _ hpx1 hpx2 h
  obtain ⟨e5, h⟩ := read_int32_step d (o + (1 + it.name.length) + 4 + 4 + 4) ud ub it.pos_y _ hpy1 hpy2 h
  obtain ⟨e6, h⟩ := read_bool_step d (o + (1 + it.name.length) + 4 + 4 + 4 + 4) ud ub (if it.equipped then 1 else 0) _ h
  obtain ⟨e7, h⟩ := read_int32_step d (o + (1 + it.name.length) + 4 + 4 + 4 + 4 + 1) ud ub it.quality _ hq1 hq2 h
  obtain ⟨e8, h⟩ := read_int32_step d (o + (1 + it.name.length) + 4 + 4 + 4 + 4 + 1 + 4) ud ub it.variant _ hvr1 hvr2 h
  obtain ⟨e9, h⟩ := read_int64_step d (o + (1 + it.name.length) + 4 + 4 + 4 + 4 + 1 + 4 + 4) ud ub it.crafter_id _ hc1 hc2 h
  obtain ⟨e10, h⟩ := read_string_step d (o + (1 + it.name.length) + 4 + 4 + 4 + 4 + 1 + 4 + 4 + 8) ud ub it.crafter_name _ hcraft h
  obtain ⟨hs8, h⟩ := drop_append_step d t8 ([t1] ++ rest) (o + (1 + it.name.length) + 4 + 4 + 4 + 4 + 1 + 4 + 4 + 8 + (1 + it.crafter_name.length)) h
  rw [ht8] at hs8 h
  obtain ⟨e11, h⟩ := read_byte_step d (o + (1 + it.name.length) + 4 + 4 + 4 + 4 + 1 + 4 + 4 + 8 + (1 + it.crafter_name.length) + 8) t8 ub t1 rest h
  constructor
  · rw [read_item]
    simp only [e1, e2, e3, e4, e5, e6, e7, e8, e9, e10, readBind,
               UNKNOWN_DATA_SIZE, hs8, e11, decide_boolByte]
    simp only [Prod.mk.injEq, ValheimItemReader.mk.injEq, and_true, true_and]
    omega
  · rw [show o + (44 + it.name.length + it.crafter_name.length) =
        o + (1 + it.name.length) + 4 + 4 + 4 + 4 + 1 + 4 + 4 + 8 + (1 + it.crafter_name.length) + 8 + 1 by omega]
    exact h

/-! ### Out-of-data and success-shape lemmas -/

theorem length_sliceBytes (d : List Nat) (o k : Nat) :
    (sliceBytes d o k).length = min k (d.length - o) := by
  simp [sliceBytes]

theorem read_byte_oob (r : ValheimItemReader) (h : r.data.length < r.offset + 1) :
    read_byte r = (Except.error PyErr.indexError, r) := by
  rw [read_byte, dif_neg (by omega)]

theorem read_bool_oob (r : ValheimItemReader) (h : r.data.length < r.offset + 1) :
    read_bool r = (Except.error PyErr.indexError, r) := by
  rw [read_bool, dif_neg (by omega)]

theorem read_int32_oob (r : ValheimItemReader) (h : r.data.length < r.offset + 4) :
    read_int32 r = (Except.error PyErr.structError, r) := by
  simp only [read_int32]
  rw [if_neg (by rw [length_sliceBytes]; omega)]

theorem read_int64_oob (r : ValheimItemReader) (h : r.data.length < r.offset + 8) :
    read_int64 r = (Except.error PyErr.structError, r) := by
  simp only [read_int64]
  rw [if_neg (by rw [length_sliceBytes]; omega)]

theorem read_float_oob (r : ValheimItemReader) (h : r.data.length < r.offset + 4) :
    read_float r = (Except.error PyErr.structError, r) := by
  simp only [read_float]
  rw [if_neg (by rw [length_sliceBytes]; omega)]

theorem read_int32_of_len (r : ValheimItemReader) (h : r.offset + 4 ≤ r.data.length) :
    read_int32 r = (Except.ok (toInt32 (leNat (sliceBytes r.data r.offset 4))),
                    { r with offset := r.offset + 4 }) := by
  simp only [read_int32]
  rw [if_pos (by rw [length_sliceBytes]; omega)]

theorem read_int32_ok_offset (r r' : ValheimItemReader) (v : Int)
    (h : read_int32 r = (Except.ok v, r')) :
    r' = { r with offset := r.offset + 4 } := by
  simp only [read_int32] at h
  split at h
  · exact (congrArg Prod.snd h).symm
  · exact absurd (congrArg Prod.fst h) (by simp)

/-! ### Exact-prefix characterization of the decode loop -/

/-- Decoding exactly `k` records with no failure: `some (records, reader
after them)` when the first `k` calls to `read_item` all succeed, `none`
otherwise. -/
def decodeSteps :
    Nat → ValheimItemReader → Option (List ValheimItem × ValheimItemReader)
  | 0, r => some ([], r)
  | k + 1, r =>
    match read_item r with
    | (Except.ok it, r1) => (decodeSteps k r1).map fun p => (it :: p.1, p.2)
    | (Except.error _, _) => none

/-! ## Claim C1 -/

/-- C1 counterexample: the original claim says every read operation —
`read_string` included — fails with an out-of-data error when fewer bytes
remain than it needs.  On buffer `[2, 65]` the length prefix is 2 but only
one byte remains; `read_string` nevertheless returns the string decoded
from the single available byte (`"A"`) and pushes the offset to 3. -/
theorem c1_counterexample :
    read_string ⟨[2, 65], 0, [], 0⟩ = (Except.ok [65], ⟨[2, 65], 3, [], 0⟩) := by
  decide

/-- C1 as amended: the five fixed-width reads (`read_byte`, `read_int32`,
`read_int64`, `read_float`, `read_bool`) do fail with the out-of-data
exception (`IndexError` / `struct.error`) whenever fewer bytes remain than
they need, never returning a partial or zero-filled value; but
`read_string` with length prefix `len` and fewer than `len` bytes remaining
returns the string decoded from the bytes that happen to be available
(whenever they are valid UTF-8) instead of failing. -/
theorem c1_fixed_width_out_of_data (d : List Nat) (o : Nat) (ud : List Nat)
    (ub : Nat) :
    (d.length < o + 1 →
      (read_byte ⟨d, o, ud, ub⟩).1 = Except.error PyErr.indexError) ∧
    (d.length < o + 4 →
      (read_int32 ⟨d, o, ud, ub⟩).1 = Except.error PyErr.structError) ∧
    (d.length < o + 8 →
      (read_int64 ⟨d, o, ud, ub⟩).1 = Except.error PyErr.structError) ∧
    (d.length < o + 4 →
      (read_float ⟨d, o, ud, ub⟩).1 = Except.error PyErr.structError) ∧
    (d.length < o + 1 →
      (read_bool ⟨d, o, ud, ub⟩).1 = Except.error PyErr.indexError) ∧
    (∀ len tail, d.drop o = len :: tail → 0 < len → d.length < o + 1 + len →
      utf8Valid (sliceBytes d (o + 1) len) = true →
      (read_string ⟨d, o, ud, ub⟩).1 = Except.ok (sliceBytes d (o + 1) len)) := by
  refine ⟨fun h => ?_, fun h => ?_, fun h => ?_, fun h => ?_, fun h => ?_,
          fun len tail hdrop hpos hshort hvalid => ?_⟩
  · rw [read_byte_oob _ h]
  · rw [read_int32_oob _ h]
  · rw [read_int64_oob _ h]
  · rw [read_float_oob _ h]
  · rw [read_bool_oob _ h]
  · obtain ⟨hb, -⟩ := read_byte_step d o ud ub len tail hdrop
    rw [read_string, hb]
    simp only [if_neg (by omega : ¬ len = 0)]
    simp [hvalid]

/-- C1 witness: out-of-data failure of `read_int32` on a 2-byte buffer, and
the truncated `read_string` success of the amended clause on `[2, 65]`. -/
theorem c1_witness :
    (read_int32 ⟨[1, 2], 0, [], 0⟩).1 = Except.error PyErr.structError ∧
    (read_string ⟨[2, 65], 0, [], 0⟩).1 = Except.ok (sliceBytes [2, 65] 1 2) := by
  constructor
  · exact (c1_fixed_width_out_of_data [1, 2] 0 [] 0).2.1 (by decide)
  · exact (c1_fixed_width_out_of_data [2, 65] 0 [] 0).2.2.2.2.2 2 [65]
      (by decide) (by decide) (by decide) (by decide)

/-! ## Claim C5 -/

/-- C5 counterexample: the original claim says `0 ≤ offset ≤ length(buffer)`
holds at all times and no read leaves the offset beyond the buffer end.
After `read_string` on `[2, 65]` (length prefix 2, one byte available) the
offset stands at 3, strictly beyond the 2-byte buffer. -/
theorem c5_counterexample :
    (read_string ⟨[2, 65], 0, [], 0⟩).2.data.length <
      (read_string ⟨[2, 65], 0, [], 0⟩).2.offset := by
  decide

/-- C5 as amended: the five fixed-width reads preserve the invariant
`offset ≤ length(buffer)` (and leave the buffer itself unchanged), whether
they succeed or fail; the invariant can be broken only by `read_string`
(truncated slice, `offset += length` past the end) and by the unconditional
8-byte `unknown_data` skip inside `read_item`. -/
theorem c5_fixed_width_invariant (d : List Nat) (o : Nat) (ud : List Nat)
    (ub : Nat) (h : o ≤ d.length) :
    ((read_byte ⟨d, o, ud, ub⟩).2.offset ≤ d.length ∧
     (read_byte ⟨d, o, ud, ub⟩).2.data = d) ∧
    ((read_int32 ⟨d, o, ud, ub⟩).2.offset ≤ d.length ∧
     (read_int32 ⟨d, o, ud, ub⟩).2.data = d) ∧
    ((read_int64 ⟨d, o, ud, ub⟩).2.offset ≤ d.length ∧
     (read_int64 ⟨d, o, ud, ub⟩).2.data = d) ∧
    ((read_float ⟨d, o, ud, ub⟩).2.offset ≤ d.length ∧
     (read_float ⟨d, o, ud, ub⟩).2.data = d) ∧
    ((read_bool ⟨d, o, ud, ub⟩).2.offset ≤ d.length ∧
     (read_bool ⟨d, o, ud, ub⟩).2.data = d) := by
  refine ⟨?_, ?_, ?_, ?_, ?_⟩
  · rw [read_byte]; split
    · rename_i hlt; simp at hlt ⊢; omega
    · simpa using h
  · simp only [read_int32]; split
    · rename_i hc; rw [length_sliceBytes] at hc; simp at hc ⊢; omega
    · simpa using h
  · simp only [read_int64]; split
    · rename_i hc; rw [length_sliceBytes] at hc; simp at hc ⊢; omega
    · simpa using h
  · simp only [read_float]; split
    · rename_i hc; rw [length_sliceBytes] at hc; simp at hc ⊢; omega
    · simpa using h
  · rw [read_bool]; split
    · rename_i hlt; simp at hlt ⊢; omega
    · simpa using h

/-- C5 witness: the fixed-width invariant at a concrete reader. -/
theorem c5_witness :
    (read_int32 ⟨[1, 2, 3, 4, 5], 1, [], 0⟩).2.offset ≤ 5 ∧
    (read_int32 ⟨[1, 2, 3, 4, 5], 1, [], 0⟩).2.data = [1, 2, 3, 4, 5] := by
  have h := (c5_fixed_width_invariant [1, 2, 3, 4, 5] 1 [] 0 (by decide)).2.1
  simpa using h

/-! ## Claim C10 -/

/-- C10: every fixed-width primitive read that fails leaves the cursor
offset (indeed the whole reader state) unchanged — in the source the raise
happens before `self.offset` is incremented, so the failure is atomic with
respect to cursor state. -/
theorem c10_failed_read_state_unchanged (d : List Nat) (o : Nat)
    (ud : List Nat) (ub : Nat) :
    (∀ e, (read_byte ⟨d, o, ud, ub⟩).1 = Except.error e →
      (read_byte ⟨d, o, ud, ub⟩).2 = ⟨d, o, ud, ub⟩) ∧
    (∀ e, (read_int32 ⟨d, o, ud, ub⟩).1 = Except.error e →
      (read_int32 ⟨d, o, ud, ub⟩).2 = ⟨d, o, ud, ub⟩) ∧
    (∀ e, (read_int64 ⟨d, o, ud, ub⟩).1 = Except.error e →
      (read_int64 ⟨d, o, ud, ub⟩).2 = ⟨d, o, ud, ub⟩) ∧
    (∀ e, (read_float ⟨d, o, ud, ub⟩).1 = Except.error e →
      (read_float ⟨d, o, ud, ub⟩).2 = ⟨d, o, ud, ub⟩) ∧
    (∀ e, (read_bool ⟨d, o, ud, ub⟩).1 = Except.error e →
      (read_bool ⟨d, o, ud, ub⟩).2 = ⟨d, o, ud, ub⟩) := by
  refine ⟨?_, ?_, ?_, ?_, ?_⟩ <;> intro e he
  · by_cases hlen : d.length < o + 1
    · rw [read_byte_oob _ hlen]
    · rw [read_byte, dif_pos (show o < d.length by omega)] at he
      simp at he
  · by_cases hlen : d.length < o + 4
    · rw [read_int32_oob _ hlen]
    · rw [read_int32_of_len _ (show o + 4 ≤ d.length by omega)] at he
      simp at he
  · by_cases hlen : d.length < o + 8
    · rw [read_int64_oob _ hlen]
    · simp only [read_int64] at he
      rw [if_pos (by rw [length_sliceBytes]; simp; omega)] at he
      simp at he
  · by_cases hlen : d.length < o + 4
    · rw [read_float_oob _ hlen]
    · simp only [read_float] at he
      rw [if_pos (by rw [length_sliceBytes]; simp; omega)] at he
      simp at he
  · by_cases hlen : d.length < o + 1
    · rw [read_bool_oob _ hlen]
    · rw [read_bool, dif_pos (show o < d.length by omega)] at he
      simp at he

/-- C10 witness: a failing `read_int64` near the end of a buffer leaves the
reader exactly as it was. -/
theorem c10_witness :
    (read_int64 ⟨[7], 0, [], 0⟩).2 = ⟨[7], 0, [], 0⟩ :=
  (c10_failed_read_state_unchanged [7] 0 [] 0).2.2.1 PyErr.structError (by decide)

/-! ## Claim C4 -/

/-- C4 counterexample: the original claim says every successfully decoded
record contains a `trailingOpaqueBytes` field holding the 9 raw trailing
bytes verbatim.  Two record buffers identical except for those 9 trailing
bytes (all zero vs. all 9) decode to the *same* record value, so the
returned record cannot carry them; the record type has no such field. -/
theorem c4_counterexample :
    (read_item (mkReader (List.replicate 44 0))).1 =
      Except.ok ⟨[], 0, 0, 0, 0, false, 0, 0, 0, []⟩ ∧
    (read_item (mkReader (List.replicate 35 0 ++ List.replicate 9 9))).1 =
      Except.ok ⟨[], 0, 0, 0, 0, false, 0, 0, 0, []⟩ ∧
    sliceBytes (List.replicate 44 0) 35 9 ≠
      sliceBytes (List.replicate 35 0 ++ List.replicate 9 9) 35 9 := by
  decide

/-- C4 as amended: the 9 trailing bytes of a record are consumed and
preserved verbatim, but on the *reader object* — the 8-byte part in
`unknown_data` and the 1-byte part in `unknown_byte` — not as a field of
the returned record, which holds only the ten named fields. -/
theorem c4_trailing_bytes_on_reader (it : ValheimItem) (t8 : List Nat)
    (t1 : Nat)
    (hname : utf8Valid it.name = true)
    (hcraft : utf8Valid it.crafter_name = true)
    (hstack1 : -(2 ^ 31) ≤ it.stack) (hstack2 : it.stack < 2 ^ 31)
    (hdur : it.durability < 2 ^ 32)
    (hpx1 : -(2 ^ 31) ≤ it.pos_x) (hpx2 : it.pos_x < 2 ^ 31)
    (hpy1 : -(2 ^ 31) ≤ it.pos_y) (hpy2 : it.pos_y < 2 ^ 31)
    (hq1 : -(2 ^ 31) ≤ it.quality) (hq2 : it.quality < 2 ^ 31)
    (hvr1 : -(2 ^ 31) ≤ it.variant) (hvr2 : it.variant < 2 ^ 31)
    (hc1 : -(2 ^ 63) ≤ it.crafter_id) (hc2 : it.crafter_id < 2 ^ 63)
    (ht8 : t8.length = 8) :
    (read_item (mkReader (encodeItem it t8 t1))).1 = Except.ok it ∧
    (read_item (mkReader (encodeItem it t8 t1))).2.unknown_data = t8 ∧
    (read_item (mkReader (encodeItem it t8 t1))).2.unknown_byte = t1 := by
  have h := (read_item_encode (encodeItem it t8 t1) 0 [] 0 it t8 t1 []
    hname hcraft hstack1 hstack2 hdur hpx1 hpx2 hpy1 hpy2 hq1 hq2 hvr1 hvr2
    hc1 hc2 ht8 (by simp)).1
  rw [mkReader, h]
  exact ⟨rfl, rfl, rfl⟩

/-- C4 witness: a concrete record (name `"S"`, crafter `"W"`, trailing
bytes `0..7` then `9`) decodes with the trailing bytes landing on the
reader attributes. -/
theorem c4_witness :
    (read_item (mkReader (encodeItem ⟨[83], 1, 5, 2, 3, true, 4, 0, 7, [87]⟩
        [0, 1, 2, 3, 4, 5, 6, 7] 9))).1 =
      Except.ok ⟨[83], 1, 5, 2, 3, true, 4, 0, 7, [87]⟩ ∧
    (read_item (mkReader (encodeItem ⟨[83], 1, 5, 2, 3, true, 4, 0, 7, [87]⟩
        [0, 1, 2, 3, 4, 5, 6, 7] 9))).2.unknown_data = [0, 1, 2, 3, 4, 5, 6, 7] ∧
    (read_item (mkReader (encodeItem ⟨[83], 1, 5, 2, 3, true, 4, 0, 7, [87]⟩
        [0, 1, 2, 3, 4, 5, 6, 7] 9))).2.unknown_byte = 9 :=
  c4_trailing_bytes_on_reader ⟨[83], 1, 5, 2, 3, true, 4, 0, 7, [87]⟩
    [0, 1, 2, 3, 4, 5, 6, 7] 9 (by decide) (by decide) (by decide) (by decide)
    (by decide) (by decide) (by decide) (by decide) (by decide) (by decide)
    (by decide) (by decide) (by decide) (by decide) (by decide) (by decide)

/-! ## Claim C7 -/

/-- C7: round trip — encoding a record (name and crafter name of at most
255 UTF-8 bytes each) with the spec layout and decoding it with `read_item`
yields field-for-field equality with the original.  Durability is carried
as its IEEE-754 float32 bit pattern, so "matching the nearest representable
float32 value" is byte-for-byte preservation of those 4 bytes. -/
theorem c7_round_trip (it : ValheimItem) (t8 : List Nat) (t1 : Nat)
    (hnamel : it.name.length ≤ 255) (hcraftl : it.crafter_name.length ≤ 255)
    (hname : utf8Valid it.name = true)
    (hcraft : utf8Valid it.crafter_name = true)
    (hstack1 : -(2 ^ 31) ≤ it.stack) (hstack2 : it.stack < 2 ^ 31)
    (hdur : it.durability < 2 ^ 32)
    (hpx1 : -(2 ^ 31) ≤ it.pos_x) (hpx2 : it.pos_x < 2 ^ 31)
    (hpy1 : -(2 ^ 31) ≤ it.pos_y) (hpy2 : it.pos_y < 2 ^ 31)
    (hq1 : -(2 ^ 31) ≤ it.quality) (hq2 : it.quality < 2 ^ 31)
    (hvr1 : -(2 ^ 31) ≤ it.variant) (hvr2 : it.variant < 2 ^ 31)
    (hc1 : -(2 ^ 63) ≤ it.crafter_id) (hc2 : it.crafter_id < 2 ^ 63)
    (ht8 : t8.length = 8) :
    (read_item (mkReader (encodeItem it t8 t1))).1 = Except.ok it := by
  have h := (read_item_encode (encodeItem it t8 t1) 0 [] 0 it t8 t1 []
    hname hcraft hstack1 hstack2 hdur hpx1 hpx2 hpy1 hpy2 hq1 hq2 hvr1 hvr2
    hc1 hc2 ht8 (by simp)).1
  rw [mkReader, h]

/-- C7 witness: the round trip at a concrete record with nonzero values in
every field. -/
theorem c7_witness :
    (read_item (mkReader (encodeItem
        ⟨[65, 120], -2, 1117192192, 3, 1, true, 2, 1, -987654321, [87, 97]⟩
        [1, 1, 2, 3, 5, 8, 13, 21] 34))).1 =
      Except.ok ⟨[65, 120], -2, 1117192192, 3, 1, true, 2, 1, -987654321,
                 [87, 97]⟩ :=
  c7_round_trip
    ⟨[65, 120], -2, 1117192192, 3, 1, true, 2, 1, -987654321, [87, 97]⟩
    [1, 1, 2, 3, 5, 8, 13, 21] 34 (by decide) (by decide) (by decide)
    (by decide) (by decide) (by decide) (by decide) (by decide) (by decide)
    (by decide) (by decide) (by decide) (by decide) (by decide) (by decide)
    (by decide) (by decide) (by decide)

/-! ## Claim C6 -/

/-- C6: the record loop of `parse_items_from_base64` returns exactly the
maximal prefix of records that decode fully: there is a `k ≤ n` such that
the result is precisely the first `k` records, each produced by a fully
successful `read_item` (`decodeSteps`), and either `k = n` (all requested
records decoded) or the `read_item` for record `k` fails — so records
`k + 1 .. n - 1` are never attempted, and no partially decoded record is
included. -/
theorem c6_loop_exact_prefix (n : Nat) (r : ValheimItemReader) :
    ∃ k rk, k ≤ n ∧ decodeSteps k r = some ((parseLoop n r).1, rk) ∧
      (k = n ∨ ∃ e, (read_item rk).1 = Except.error e) := by
  induction n generalizing r with
  | zero => exact ⟨0, r, Nat.le_refl 0, rfl, Or.inl rfl⟩
  | succ n ih =>
    rcases hri : read_item r with ⟨res, r1⟩
    cases res with
    | ok it =>
      obtain ⟨k, rk, hk, hds, hor⟩ := ih r1
      have hp : (parseLoop (n + 1) r).1 = it :: (parseLoop n r1).1 := by
        simp [parseLoop, hri]
      refine ⟨k + 1, rk, by omega, ?_, ?_⟩
      · simp [decodeSteps, hri, hds, hp]
      · rcases hor with h | ⟨e, he⟩
        · exact Or.inl (by omega)
        · exact Or.inr ⟨e, he⟩
    | error e =>
      have hp : (parseLoop (n + 1) r).1 = [] := by simp [parseLoop, hri]
      exact ⟨0, r, Nat.zero_le _, by simp [decodeSteps, hp],
             Or.inr ⟨e, by rw [hri]⟩⟩

/-! ## Claim C2 -/

/-- C2 counterexample: the original claim says a caller never sees a raised
exception once base64 decoding succeeded, even for a buffer too short for
the two int32 header fields.  `"AAAA"` is accepted base64 (3 bytes), yet
the call raises `struct.error` to the caller: the two header reads sit
outside the `try` block. -/
theorem c2_counterexample :
    b64decode ['A', 'A', 'A', 'A'] = Except.ok [0, 0, 0] ∧
    parse_items_from_base64 ['A', 'A', 'A', 'A'] =
      Except.error PyErr.structError := by
  decide

/-- C2 as amended: for an accepted base64 input, truncation and per-record
corruption are absorbed — the caller sees no error — exactly when the
decoded buffer holds at least the 8 header bytes; when the decoded buffer
is shorter than 8 bytes, the header reads raise `struct.error` to the
caller. -/
theorem c2_header_strict (s : List Char) (data : List Nat)
    (hb : b64decode s = Except.ok data) :
    (8 ≤ data.length → ∃ items, parse_items_from_base64 s = Except.ok items) ∧
    (data.length < 8 →
      parse_items_from_base64 s = Except.error PyErr.structError) := by
  constructor
  · intro hlen
    have h1 := read_int32_of_len ⟨data, 0, [], 0⟩ (by simp; omega)
    have h2 := read_int32_of_len ⟨data, 0 + 4, [], 0⟩ (by simp; omega)
    have hrun : parse_items_run s = Except.ok
        (parseLoop (toInt32 (leNat (sliceBytes data (0 + 4) 4))).toNat
          ⟨data, 0 + 4 + 4, [], 0⟩) := by
      simp [parse_items_run, hb, mkReader, h1, h2]
    rw [parse_items_from_base64, hrun]
    exact ⟨_, rfl⟩
  · intro hlen
    by_cases h4 : data.length < 4
    · have h1 := read_int32_oob ⟨data, 0, [], 0⟩ (by simp; omega)
      simp [parse_items_from_base64, parse_items_run, hb, mkReader, h1,
            Except.map]
    · have h1 := read_int32_of_len ⟨data, 0, [], 0⟩ (by simp; omega)
      have h2 := read_int32_oob ⟨data, 0 + 4, [], 0⟩ (by simp; omega)
      simp [parse_items_from_base64, parse_items_run, hb, mkReader, h1, h2,
            Except.map]

/-- C2 witness: a 9-zero-byte envelope (12 `'A'` characters) decodes without
any caller-visible error. -/
theorem c2_witness :
    ∃ items, parse_items_from_base64
      ['A', 'A', 'A', 'A', 'A', 'A', 'A', 'A', 'A', 'A', 'A', 'A'] =
        Except.ok items :=
  (c2_header_strict
    ['A', 'A', 'A', 'A', 'A', 'A', 'A', 'A', 'A', 'A', 'A', 'A']
    [0, 0, 0, 0, 0, 0, 0, 0, 0] (by decide)).1 (by decide)

/-! ## Claim C3 -/

/-- C3 counterexample: the original claim says any input that is not valid
base64 — for example text containing `'!'` — raises the encoding error
before any record is attempted.  In fact `b64decode` silently discards
non-alphabet characters: `"!"` decodes successfully to the empty buffer,
and the call then fails with the out-of-data `struct.error` from the header
read, not with an encoding error. -/
theorem c3_counterexample :
    b64decode ['!'] = Except.ok [] ∧
    parse_items_from_base64 ['!'] = Except.error PyErr.structError := by
  decide

/-- C3 as amended: characters outside the base64 alphabet are discarded by
the decoder rather than rejected; only an invalid count of data characters
(padding error) makes `b64decode` fail, and when it does fail the error is
raised before any record is attempted — the error propagates unchanged and
no records are returned. -/
theorem c3_decode_error_propagates (s : List Char) (e : PyErr)
    (hb : b64decode s = Except.error e) :
    parse_items_from_base64 s = Except.error e := by
  simp [parse_items_from_base64, parse_items_run, hb, Except.map]

/-- C3 witness: one data character is an invalid base64 length; the
`binascii.Error` reaches the caller untouched. -/
theorem c3_witness :
    parse_items_from_base64 ['A'] = Except.error PyErr.binasciiError :=
  c3_decode_error_propagates ['A'] PyErr.binasciiError (by decide)

/-! ## Claim C8 -/

/-- C8: when the decoded `num_items` header field is zero or negative,
`parse_items_from_base64` returns the empty record list without any error
and without attempting a record decode, leaving the cursor exactly 8 bytes
(the two int32 header fields) into the buffer. -/
theorem c8_nonpositive_count (s : List Char) (data : List Nat) (v n : Int)
    (r1 r2 : ValheimItemReader)
    (hb : b64decode s = Except.ok data)
    (h1 : read_int32 (mkReader data) = (Except.ok v, r1))
    (h2 : read_int32 r1 = (Except.ok n, r2))
    (hn : n ≤ 0) :
    parse_items_run s = Except.ok ([], r2) ∧ r2.offset = 8 := by
  have hr1 := read_int32_ok_offset _ _ _ h1
  have hr2 := read_int32_ok_offset _ _ _ h2
  constructor
  · simp [parse_items_run, hb, h1, h2, Int.toNat_of_nonpos hn, parseLoop]
  · subst hr1
    subst hr2
    simp [mkReader]

/-- C8 witness: the envelope of 8 zero bytes (`version = 0`,
`num_items = 0`) yields the empty list with the cursor at offset 8. -/
theorem c8_witness :
    parse_items_run ['A', 'A', 'A', 'A', 'A', 'A', 'A', 'A', 'A', 'A', 'A', '='] =
      Except.ok ([], ⟨[0, 0, 0, 0, 0, 0, 0, 0], 8, [], 0⟩) ∧
    (⟨[0, 0, 0, 0, 0, 0, 0, 0], 8, [], 0⟩ : ValheimItemReader).offset = 8 :=
  c8_nonpositive_count
    ['A', 'A', 'A', 'A', 'A', 'A', 'A', 'A', 'A', 'A', 'A', '=']
    [0, 0, 0, 0, 0, 0, 0, 0] 0 0
    ⟨[0, 0, 0, 0, 0, 0, 0, 0], 4, [], 0⟩
    ⟨[0, 0, 0, 0, 0, 0, 0, 0], 8, [], 0⟩
    (by decide) (by decide) (by decide) (by decide)

/-! ## Claim C9 -/

/-- C9: `parse_items_from_base64` is deterministic and stateless across
calls: it is a pure function of its input — each call base64-decodes its
own buffer and constructs its own fresh cursor (`mkReader`, offset 0), so
two calls on the same input always produce equal results and no mutable
state flows from one call into another. -/
theorem c9_deterministic (s t : List Char) (h : s = t) :
    parse_items_from_base64 s = parse_items_from_base64 t := by
  rw [h]

/-- C9 witness: two calls on the 1-byte envelope agree. -/
theorem c9_witness :
    parse_items_from_base64 ['A', 'A', '=', '='] =
      parse_items_from_base64 ['A', 'A', '=', '='] :=
  c9_deterministic ['A', 'A', '=', '='] ['A', 'A', '=', '='] rfl

end ValheimSaveTools

